import Mathlib

/-!
Shallow embedding of `src/app.py` (a Streamlit label-editor app) and proofs
about its data-loading, validation, image-resolution, batch-partitioning and
export pipeline.

Conventions of the embedding:
* Python strings are Lean `String`s; `str.split(sep)` for a one-character
  separator is `pySplit`.
* Machine-level bytes are `Nat`s taken mod 256 by the base64 encoder.
* Fallible Python operations (`KeyError`, `IndexError`, `csv.Error`,
  `ValueError`, validation `st.error` + `st.stop`) are `Option`/`Except`.
* A pandas `DataFrame` of label rows is a `List` of row records; the pandas
  integer index is carried explicitly as a `Nat` label where a claim needs it.
-/

/-- Python `s.split(sep)` on the character list of `s`, for a single-character
separator `sep` (the app only splits on `"."`, `"_"`, `"/"`, `"\t"`, `"\n"`).
Python returns `['']` on the empty string and keeps empty groups. -/
def pyGroupCons (c : Char) : List (List Char) → List (List Char)
  | [] => [[c]]
  | g :: gs => (c :: g) :: gs

def pySplit (sep : Char) : List Char → List (List Char)
  | [] => [[]]
  | c :: cs =>
    if c = sep then [] :: pySplit sep cs else pyGroupCons c (pySplit sep cs)

theorem pySplit_ne_nil (sep : Char) (l : List Char) : pySplit sep l ≠ [] := by
  cases l with
  | nil => simp [pySplit]
  | cons c cs =>
    by_cases h : c = sep
    · simp [pySplit, h]
    · simp only [pySplit, h, if_false]
      cases pySplit sep cs <;> simp [pyGroupCons]

theorem pySplit_of_not_mem {sep : Char} {l : List Char} (h : sep ∉ l) :
    pySplit sep l = [l] := by
  induction l with
  | nil => rfl
  | cons c cs ih =>
    have hc : c ≠ sep := fun hcs => h (hcs ▸ List.mem_cons_self c cs)
    have hcs : sep ∉ cs := fun hm => h (List.mem_cons_of_mem _ hm)
    simp [pySplit, ih hcs, hc, pyGroupCons]

theorem pyGroupCons_append (c : Char) {l : List (List Char)} (hl : l ≠ [])
    (m : List (List Char)) : pyGroupCons c (l ++ m) = pyGroupCons c l ++ m := by
  cases l with
  | nil => exact absurd rfl hl
  | cons g gs => simp [pyGroupCons]

theorem pySplit_append (sep : Char) (xs ys : List Char) :
    pySplit sep (xs ++ sep :: ys) = pySplit sep xs ++ pySplit sep ys := by
  induction xs with
  | nil => simp [pySplit]
  | cons c cs ih =>
    by_cases h : c = sep
    · simp [pySplit, h, ih]
    · simp only [List.cons_append, pySplit, h, if_false, List.append_eq]
      rw [ih, pyGroupCons_append c (pySplit_ne_nil sep cs)]

/-- Characters of a base64 alphabet index. -/
def b64Char (n : Nat) : Char :=
  "ABCDEFGHIJKLMNOPQRSTUVWXYZabcdefghijklmnopqrstuvwxyz0123456789+/".data.getD n 'A'

/-- Standard base64 with `=` padding, as `base64.b64encode` produces
(bytes are taken mod 256). -/
def base64Encode : List Nat → String
  | [] => ""
  | [a] =>
    let a := a % 256
    String.mk [b64Char (a / 4), b64Char (a % 4 * 16), '=', '=']
  | [a, b] =>
    let a := a % 256
    let b := b % 256
    String.mk [b64Char (a / 4), b64Char (a % 4 * 16 + b / 16), b64Char (b % 16 * 4), '=']
  | a :: b :: c :: rest =>
    let a := a % 256
    let b := b % 256
    let c := c % 256
    String.mk [b64Char (a / 4), b64Char (a % 4 * 16 + b / 16),
      b64Char (b % 16 * 4 + c / 64), b64Char (c % 64)] ++ base64Encode rest

/-- Embeds `image_path.split(".")[-1]` from `image_to_data_url`
(src/app.py line 22). -/
def imageExt (image_path : String) : String :=
  String.mk ((pySplit '.' image_path.data).getLastD [])

/-- Embeds `image_to_data_url` (src/app.py lines 15-25): the zip file is an
association list from entry name to byte content; `zip_file.open` on an absent
name raises, modelled as `none`. -/
def image_to_data_url (zf : List (String × List Nat)) (image_path : String) :
    Option String :=
  match zf.lookup image_path with
  | none => none
  | some bytes =>
    some ("data:image/" ++ imageExt image_path ++ ";base64," ++ base64Encode bytes)

theorem imageExt_after_last_dot (a b : String) (h : '.' ∉ b.data) :
    imageExt (a ++ "." ++ b) = b := by
  have hdata : (a ++ "." ++ b).data = a.data ++ '.' :: b.data := by
    rw [String.data_append, String.data_append, List.append_assoc]
    rfl
  rw [imageExt, hdata, pySplit_append, pySplit_of_not_mem h, List.getLastD_concat]

theorem imageExt_no_dot (p : String) (h : '.' ∉ p.data) : imageExt p = p := by
  rw [imageExt, pySplit_of_not_mem h]
  rfl

/-- C3 (amended): for every archive entry the resolver yields
`data:image/<ext>;base64,<data>` where `<ext>` is the substring after the last
`.` of the path taken verbatim — the code performs no lowercasing — and a path
containing no `.` contributes the whole path as the ext segment, not the empty
string. -/
theorem image_to_data_url_shape (zf : List (String × List Nat))
    (p : String) (bs : List Nat) (h : zf.lookup p = some bs) :
    image_to_data_url zf p =
      some ("data:image/" ++ imageExt p ++ ";base64," ++ base64Encode bs) ∧
    (∀ a b : String, '.' ∉ b.data → imageExt (a ++ "." ++ b) = b) ∧
    (∀ q : String, '.' ∉ q.data → imageExt q = q) := by
  refine ⟨?_, imageExt_after_last_dot, imageExt_no_dot⟩
  rw [image_to_data_url, h]

/-- Witness for `image_to_data_url_shape` at a concrete archive. -/
theorem image_to_data_url_shape_witness :
    image_to_data_url [("imgs/1.jpg", [255, 216])] "imgs/1.jpg" =
      some ("data:image/" ++ imageExt "imgs/1.jpg" ++ ";base64," ++
        base64Encode [255, 216]) ∧
    (∀ a b : String, '.' ∉ b.data → imageExt (a ++ "." ++ b) = b) ∧
    (∀ q : String, '.' ∉ q.data → imageExt q = q) :=
  image_to_data_url_shape [("imgs/1.jpg", [255, 216])] "imgs/1.jpg" [255, 216] rfl

/-- C3 (counterexample): the code does not lowercase the extension — for
`img.PNG` it emits `data:image/PNG;...`, not `data:image/png;...` — and for a
path with no `.` the ext segment is the whole path (`img`), not empty. -/
theorem image_to_data_url_not_lowercased :
    image_to_data_url [("img.PNG", [0])] "img.PNG" =
      some "data:image/PNG;base64,AA==" ∧
    "data:image/PNG;base64,AA==" ≠ "data:image/png;base64,AA==" ∧
    image_to_data_url [("img", [0])] "img" = some "data:image/img;base64,AA==" ∧
    imageExt "img" ≠ "" := by
  refine ⟨rfl, by decide, rfl, by decide⟩

/-- Python `pat in s` substring containment on strings. -/
def strContainsSubstr (s pat : String) : Bool := decide (pat.data <:+: s.data)

/-- Embeds line 95: drop OS-metadata entries (`"__MACOSX" not in file and
".DS_Store" not in file`). -/
def filterNoise (files : List String) : List String :=
  files.filter (fun f => !strContainsSubstr f "__MACOSX" && !strContainsSubstr f ".DS_Store")

/-- Python `s.endswith(suf)`. -/
def pyEndsWith (s suf : String) : Bool := decide (suf.data <:+ s.data)

/-- Embeds line 98: candidate label files are the entries ending in `.tsv` or
`.csv`. -/
def labelCandidates (files : List String) : List String :=
  files.filter (fun f => pyEndsWith f ".tsv" || pyEndsWith f ".csv")

inductive SelectError where
  | indexOutOfRange
deriving DecidableEq

/-- Embeds lines 99-104. When candidates exist the `st.selectbox` is shown
(modelled by its default, the first option); otherwise the code evaluates
`label_files[0]` on the (necessarily empty) list, a Python `IndexError`,
modelled as the `.error` case. -/
def selectLabelFile (files : List String) : Except SelectError String :=
  let label_files := labelCandidates files
  if label_files.length ≠ 0 then
    .ok (label_files.getD 0 "")
  else
    match label_files.get? 0 with
    | some f => .ok f
    | none => .error .indexOutOfRange

/-- C2 (code bug, demonstrated): on an archive with no `.csv`/`.tsv` entry the
selection code path indexes out of range (`label_files[0]` on an empty list)
instead of surfacing a clean no-label-file error. -/
theorem selectLabelFile_empty_index :
    selectLabelFile ["batch_1/img_01.jpg", "batch_1/img_02.jpg"] =
      .error .indexOutOfRange := rfl

structure SchemaError where
  must_have : List String
  got : List String
deriving DecidableEq

/-- Required columns spelled by the message on lines 119-122. -/
def requiredCols : List String := ["path", "text"]

/-- Embeds lines 118-123: `{"path","text"}.issubset(df.columns)`; on failure
the message spells the fixed required names (`must_have`) and the columns
actually found (`got`). -/
def validateColumns (cols : List String) : Except SchemaError Unit :=
  if requiredCols.all (fun c => cols.contains c) then .ok ()
  else .error ⟨requiredCols, cols⟩

/-- The true set difference `{path, text} \ columns-present`, which the claim
says the error reports. -/
def missingCols (cols : List String) : List String :=
  requiredCols.filter (fun c => !cols.contains c)

/-- C4 (amended): loading fails whenever `path` or `text` is absent, and the
error names the fixed required set (always both `path` and `text`, regardless
of which one is missing) together with the columns actually found; it does not
compute the set difference. -/
theorem validateColumns_missing_report (cols : List String) :
    (¬ ("path" ∈ cols ∧ "text" ∈ cols) →
      validateColumns cols = .error ⟨requiredCols, cols⟩) ∧
    (("path" ∈ cols ∧ "text" ∈ cols) → validateColumns cols = .ok ()) := by
  constructor
  · intro h
    rw [validateColumns, if_neg]
    simpa [requiredCols] using h
  · intro h
    rw [validateColumns, if_pos]
    simpa [requiredCols] using h

/-- Witness for `validateColumns_missing_report` on a table missing `text`. -/
theorem validateColumns_missing_report_witness :
    validateColumns ["path", "qc_passed"] =
      .error ⟨requiredCols, ["path", "qc_passed"]⟩ :=
  (validateColumns_missing_report ["path", "qc_passed"]).1 (by decide)

/-- C4 (counterexample): with columns `path, qc_passed` the true missing set is
`{text}`, but the error names `path` as well — the reported name set is not the
set difference. -/
theorem validateColumns_named_set_not_difference :
    validateColumns ["path", "qc_passed"] =
      .error ⟨["path", "text"], ["path", "qc_passed"]⟩ ∧
    missingCols ["path", "qc_passed"] = ["text"] ∧
    "path" ∈ ["path", "text"] ∧
    "path" ∉ missingCols ["path", "qc_passed"] := by
  refine ⟨rfl, rfl, by decide, by decide⟩

/-- Python `bool(s)` on a string: truthiness, i.e. nonemptiness. `astype(bool)`
on an object column holding strings applies it cell-wise and cannot raise. -/
def pyBoolOfStr (s : String) : Bool := !s.data.isEmpty

/-- Embeds lines 148-149 (`df["qc_passed"].astype(bool)`) for a string-valued
column; the `Except` records that the cast is a fallible pandas operation, and
for string cells it always succeeds. -/
def astypeBoolCol (cells : List String) : Except String (List Bool) :=
  .ok (cells.map pyBoolOfStr)

/-- C9: casting a string-valued `qc_passed` column to bool maps every non-empty
string — in particular the string `"False"` — to `true`, and the cast never
fails on string cells. -/
theorem astypeBool_string_cells :
    pyBoolOfStr "False" = true ∧
    (∀ s : String, s ≠ "" → pyBoolOfStr s = true) ∧
    (∀ cells : List String, astypeBoolCol cells = .ok (cells.map pyBoolOfStr)) := by
  refine ⟨rfl, ?_, fun _ => rfl⟩
  intro s hs
  cases hsd : s.data with
  | nil => exact absurd (by cases s; simp_all) hs
  | cons c cs => simp [pyBoolOfStr, hsd]

/-- Witness for `astypeBool_string_cells` at the string cell `"False"`. -/
theorem astypeBool_string_cells_witness : pyBoolOfStr "False" = true :=
  (astypeBool_string_cells).2.1 "False" (by decide)

/-- Embeds `@st.cache_data` on `image_to_data_url` (lines 15-16): Streamlit
excludes parameters whose name starts with an underscore from the cache key, so
with the signature `image_to_data_url(_zip_file, image_path)` entries are keyed
by `image_path` alone. The cache is an explicit association list from key to
stored data URL, threaded through the call. -/
def cachedImageToDataUrl (zf : List (String × List Nat)) (image_path : String)
    (cache : List (String × String)) : Option String × List (String × String) :=
  match cache.lookup image_path with
  | some v => (some v, cache)
  | none =>
    match image_to_data_url zf image_path with
    | none => (none, cache)
    | some v => (some v, (image_path, v) :: cache)

/-- C6 (amended): the memoized conversion is keyed by the image path alone —
the archive handle is excluded from the cache key — so on a cache with no entry
for the path the call computes the pure conversion against the given archive,
and after any call that produced a data URL for a path, a later call with the
same path returns that cached URL even when made against a different archive. -/
theorem cachedImageToDataUrl_keyed_by_path (zf zf' : List (String × List Nat))
    (p : String) (cache : List (String × String)) (v : String) :
    (cache.lookup p = none →
      (cachedImageToDataUrl zf p cache).1 = image_to_data_url zf p) ∧
    ((cachedImageToDataUrl zf p cache).1 = some v →
      (cachedImageToDataUrl zf' p (cachedImageToDataUrl zf p cache).2).1 = some v) := by
  constructor
  · intro h
    rw [cachedImageToDataUrl, h]
    cases image_to_data_url zf p <;> rfl
  · intro h
    have h2 : ((cachedImageToDataUrl zf p cache).2).lookup p = some v := by
      cases hc : cache.lookup p with
      | some w =>
        have e : cachedImageToDataUrl zf p cache = (some w, cache) := by
          simp [cachedImageToDataUrl, hc]
        rw [e] at h ⊢
        simp only at h ⊢
        rw [hc, h]
      | none =>
        cases hi : image_to_data_url zf p with
        | none =>
          have e : cachedImageToDataUrl zf p cache = (none, cache) := by
            simp [cachedImageToDataUrl, hc, hi]
          rw [e] at h
          exact absurd h (by simp)
        | some u =>
          have e : cachedImageToDataUrl zf p cache = (some u, (p, u) :: cache) := by
            simp [cachedImageToDataUrl, hc, hi]
          rw [e] at h ⊢
          simp only at h ⊢
          simp [List.lookup, h]
    rw [cachedImageToDataUrl, h2]

/-- Witness for `cachedImageToDataUrl_keyed_by_path`: a lookup against a second
archive returns the URL cached from the first archive. -/
theorem cachedImageToDataUrl_keyed_by_path_witness :
    (cachedImageToDataUrl [("a.png", [1])] "a.png"
        (cachedImageToDataUrl [("a.png", [0])] "a.png" []).2).1 =
      some "data:image/png;base64,AA==" :=
  (cachedImageToDataUrl_keyed_by_path [("a.png", [0])] [("a.png", [1])]
    "a.png" [] "data:image/png;base64,AA==").2 rfl

/-- C6 (counterexample): two archives holding different bytes under the same
entry name — the warm cache serves the first archive's data URL for a lookup
against the second, whose own conversion differs, so the memoization is not
keyed by archive identity. -/
theorem cachedImageToDataUrl_cross_archive_hit :
    (cachedImageToDataUrl [("a.png", [1])] "a.png"
        (cachedImageToDataUrl [("a.png", [0])] "a.png" []).2).1 =
      some "data:image/png;base64,AA==" ∧
    image_to_data_url [("a.png", [1])] "a.png" = some "data:image/png;base64,AQ==" ∧
    "data:image/png;base64,AA==" ≠ "data:image/png;base64,AQ==" := by
  refine ⟨rfl, rfl, by decide⟩

/-- Nat value of a digit-character run. -/
def digitsToNat (l : List Char) : Nat :=
  l.foldl (fun n c => n * 10 + (c.toNat - '0'.toNat)) 0

/-- Model of Python `int(str)`: strip surrounding spaces, then an optional
single sign followed by a non-empty run of ASCII digits; anything else raises
`ValueError`, modelled as `none`. -/
def pyInt? (s : String) : Option Int :=
  let t := ((s.data.dropWhile (fun c => c = ' ')).reverse.dropWhile
    (fun c => c = ' ')).reverse
  match t with
  | '-' :: ds =>
    if ds ≠ [] ∧ ds.all (fun c => c.isDigit) then some (-(digitsToNat ds : Int))
    else none
  | '+' :: ds =>
    if ds ≠ [] ∧ ds.all (fun c => c.isDigit) then some ((digitsToNat ds : Int))
    else none
  | ds =>
    if ds ≠ [] ∧ ds.all (fun c => c.isDigit) then some ((digitsToNat ds : Int))
    else none

/-- Embeds the sort key of line 158, `int(x.split("_")[1])`: the segment after
the FIRST underscore. `none` models the uncaught `IndexError` (no underscore)
or `ValueError` (segment not an integer literal). -/
def batchKey (x : String) : Option Int :=
  match (pySplit '_' x.data).get? 1 with
  | none => none
  | some seg => pyInt? (String.mk seg)

/-- Python `sorted` computes the key of every element up front; one failure
aborts the whole call. -/
def computeKeys : List String → Option (List (Int × String))
  | [] => some []
  | b :: bs =>
    match batchKey b, computeKeys bs with
    | some k, some rest => some ((k, b) :: rest)
    | _, _ => none

def keyLe (p q : Int × String) : Prop := p.1 ≤ q.1

instance : DecidableRel keyLe := fun p q => inferInstanceAs (Decidable (p.1 ≤ q.1))

instance : IsTotal (Int × String) keyLe := ⟨fun p q => le_total p.1 q.1⟩

instance : IsTrans (Int × String) keyLe := ⟨fun _ _ _ h h2 => le_trans h h2⟩

/-- Embeds line 158: `batches = sorted(batches, key=lambda x: int(x.split("_")[1]))`. -/
def sortBatches (batches : List String) : Except String (List String) :=
  match computeKeys batches with
  | none => .error "BatchKeyError"
  | some keyed => .ok ((keyed.insertionSort keyLe).map (fun p => p.2))

theorem computeKeys_some {bs : List String} (h : ∀ b ∈ bs, (batchKey b).isSome) :
    computeKeys bs = some (bs.map (fun b => ((batchKey b).getD 0, b))) := by
  induction bs with
  | nil => rfl
  | cons b bs ih =>
    obtain ⟨k, hk⟩ := Option.isSome_iff_exists.mp (h b (List.mem_cons_self b bs))
    simp [computeKeys, hk, ih (fun x hx => h x (List.mem_cons_of_mem _ hx))]

theorem computeKeys_none {bs : List String} (h : ∃ b ∈ bs, batchKey b = none) :
    computeKeys bs = none := by
  induction bs with
  | nil => simp at h
  | cons b bs ih =>
    rcases h with ⟨x, hx, hnone⟩
    rcases List.mem_cons.mp hx with rfl | hx2
    · simp [computeKeys, hnone]
    · rw [computeKeys, ih ⟨x, hx2, hnone⟩]
      cases batchKey b <;> rfl

/-- C5 (amended): when every key has an integer segment after its FIRST
underscore, the batch list is sorted by that integer (numeric, not
lexicographic; for keys of the true `batch_<n>` shape this is `n`), and a key
with no underscore or a non-integer first segment makes the whole sort fail. -/
theorem sortBatches_ordering (bs : List String) :
    ((∀ b ∈ bs, (batchKey b).isSome) →
      ∃ out, sortBatches bs = .ok out ∧ out.Perm bs ∧
        out.Pairwise (fun a b => (batchKey a).getD 0 ≤ (batchKey b).getD 0)) ∧
    ((∃ b ∈ bs, batchKey b = none) → sortBatches bs = .error "BatchKeyError") := by
  constructor
  · intro h
    rw [sortBatches, computeKeys_some h]
    set keyed := bs.map (fun b => ((batchKey b).getD 0, b)) with hkeyed
    refine ⟨_, rfl, ?_, ?_⟩
    · have hp : ((keyed.insertionSort keyLe).map (fun p => p.2)).Perm
          (keyed.map (fun p => p.2)) := (List.perm_insertionSort keyLe keyed).map _
      have : keyed.map (fun p : Int × String => p.2) = bs := by
        simp [hkeyed, List.map_map, Function.comp_def]
      rwa [this] at hp
    · have hs : (keyed.insertionSort keyLe).Pairwise keyLe :=
        List.sorted_insertionSort keyLe keyed
      have hmem : ∀ p ∈ keyed.insertionSort keyLe,
          p.1 = (batchKey p.2).getD 0 := by
        intro p hp
        have hpk : p ∈ keyed := (List.perm_insertionSort keyLe keyed).subset hp
        obtain ⟨b, _, rfl⟩ := List.mem_map.mp (hkeyed ▸ hpk)
        rfl
      rw [List.pairwise_map]
      exact hs.imp_of_mem (fun ha hb hle => by
        rename_i p q
        rw [← hmem p ha, ← hmem q hb]
        exact hle)
  · intro h
    rw [sortBatches, computeKeys_none h]

/-- Witness for `sortBatches_ordering` at the spec's example keys. -/
theorem sortBatches_ordering_witness :
    sortBatches ["batch_2", "batch_10", "batch_1"] =
      .ok ["batch_1", "batch_2", "batch_10"] ∧
    ∃ out, sortBatches ["batch_2", "batch_10", "batch_1"] = .ok out ∧
      out.Perm ["batch_2", "batch_10", "batch_1"] ∧
      out.Pairwise (fun a b => (batchKey a).getD 0 ≤ (batchKey b).getD 0) :=
  ⟨rfl, (sortBatches_ordering ["batch_2", "batch_10", "batch_1"]).1 (by decide)⟩

/-- Claim-side key, following the claim's words: the integer after the LAST
underscore of the key. -/
def lastSegKey (x : String) : Option Int :=
  pyInt? (String.mk ((pySplit '_' x.data).getLastD []))

def computeLastKeys : List String → Option (List (Int × String))
  | [] => some []
  | b :: bs =>
    match lastSegKey b, computeLastKeys bs with
    | some k, some rest => some ((k, b) :: rest)
    | _, _ => none

/-- Claim-side sorter, for comparison with the code's `sortBatches`. -/
def sortBatchesClaim (batches : List String) : Except String (List String) :=
  match computeLastKeys batches with
  | none => .error "BatchKeyError"
  | some keyed => .ok ((keyed.insertionSort keyLe).map (fun p => p.2))

/-- Claim-side shape predicate: a key of the form `batch_<n>`. -/
def matchesBatchShape (x : String) : Bool :=
  decide ("batch_".data <+: x.data) &&
    (!(x.data.drop 6).isEmpty && (x.data.drop 6).all (fun c => c.isDigit))

/-- C5 (counterexample): the code keys on the segment after the FIRST
underscore, not the last — on `a_10_2, a_2_10` it orders by `10, 2` where the
claim's last-underscore rule orders by `2, 10` — and a key that does not match
`batch_<n>` (here `batch_1_2`) sorts successfully instead of failing. -/
theorem sortBatches_first_underscore_counterexample :
    sortBatches ["a_10_2", "a_2_10"] = .ok ["a_2_10", "a_10_2"] ∧
    sortBatchesClaim ["a_10_2", "a_2_10"] = .ok ["a_10_2", "a_2_10"] ∧
    (["a_2_10", "a_10_2"] : List String) ≠ ["a_10_2", "a_2_10"] ∧
    matchesBatchShape "batch_1_2" = false ∧
    sortBatches ["batch_1_2"] = .ok ["batch_1_2"] := by
  refine ⟨rfl, rfl, by decide, by decide, rfl⟩

/-- Python `s.startswith(pre)`. -/
def pyStartsWith (s pre : String) : Bool := decide (pre.data <+: s.data)

/-- Embeds `os.path.join(root, p)` (posixpath, two arguments) as used on
line 132. -/
def pyJoin (root p : String) : String :=
  if pyStartsWith p "/" then p
  else if root = "" then p
  else if pyEndsWith root "/" then root ++ p
  else root ++ "/" ++ p

/-- Embeds lines 133-139: the `image` column is `path` joined with the root,
then every joined entry key is checked against the archive listing; the first
absent key stops the app with the message carrying that key. -/
def checkImagePaths (files : List String) : List String → Except String Unit
  | [] => .ok ()
  | ip :: ips =>
    if files.contains ip then checkImagePaths files ips else .error ip

/-- The joined entry keys of a row list (line 132). -/
def imageEntryKeys (root : String) (paths : List String) : List String :=
  paths.map (pyJoin root)

theorem checkImagePaths_ok_iff (files : List String) (ips : List String) :
    checkImagePaths files ips = .ok () ↔ ∀ ip ∈ ips, ip ∈ files := by
  induction ips with
  | nil => simp [checkImagePaths]
  | cons ip ips ih =>
    by_cases h : files.contains ip
    · have hm : ip ∈ files := by simpa using h
      simp [checkImagePaths, h, ih, hm]
    · have hm : ip ∉ files := by simpa using h
      simp [checkImagePaths, h, hm]

theorem checkImagePaths_error_mem {files : List String} {ips : List String}
    {e : String} (h : checkImagePaths files ips = .error e) :
    e ∈ ips ∧ e ∉ files := by
  induction ips with
  | nil => simp [checkImagePaths] at h
  | cons ip ips ih =>
    by_cases hc : files.contains ip
    · rw [checkImagePaths, if_pos hc] at h
      obtain ⟨h1, h2⟩ := ih h
      exact ⟨List.mem_cons_of_mem _ h1, h2⟩
    · rw [checkImagePaths, if_neg hc] at h
      cases h
      exact ⟨List.mem_cons_self _ _, by simpa using hc⟩

/-- C7: whenever some row's resolved entry key (root joined with the row's
relative path) is absent from the archive listing, loading halts with an error
whose reported path is exactly such a missing joined key; and the check
succeeds exactly when every row's key is present, so no row is silently
skipped. -/
theorem checkImagePaths_reports_missing (files : List String) (root : String)
    (paths : List String) :
    ((∃ p ∈ paths, pyJoin root p ∉ files) →
      ∃ e, checkImagePaths files (imageEntryKeys root paths) = .error e ∧
        e ∉ files ∧ ∃ p ∈ paths, e = pyJoin root p) ∧
    (checkImagePaths files (imageEntryKeys root paths) = .ok () ↔
      ∀ p ∈ paths, pyJoin root p ∈ files) := by
  have hiff : checkImagePaths files (imageEntryKeys root paths) = .ok () ↔
      ∀ p ∈ paths, pyJoin root p ∈ files := by
    rw [checkImagePaths_ok_iff]
    constructor
    · intro h p hp
      exact h (pyJoin root p) (List.mem_map_of_mem _ hp)
    · intro h ip hip
      obtain ⟨p, hp, rfl⟩ := List.mem_map.mp hip
      exact h p hp
  refine ⟨?_, hiff⟩
  intro hmissing
  cases hres : checkImagePaths files (imageEntryKeys root paths) with
  | ok u =>
    cases u
    rcases hmissing with ⟨p, hp, habs⟩
    exact absurd (hiff.mp hres p hp) habs
  | error e =>
    obtain ⟨h1, h2⟩ := checkImagePaths_error_mem hres
    obtain ⟨p, hp, rfl⟩ := List.mem_map.mp h1
    exact ⟨pyJoin root p, rfl, h2, p, hp, rfl⟩

/-- Witness for `checkImagePaths_reports_missing`: an archive holding only
`root/a.png` while the label file also references `b.png`. -/
theorem checkImagePaths_reports_missing_witness :
    ∃ e, checkImagePaths ["root/a.png"]
        (imageEntryKeys "root" ["a.png", "b.png"]) = .error e ∧
      e ∉ ["root/a.png"] ∧ ∃ p ∈ ["a.png", "b.png"], e = pyJoin "root" p :=
  (checkImagePaths_reports_missing ["root/a.png"] "root" ["a.png", "b.png"]).1
    ⟨"b.png", by decide, by decide⟩

/-- A label row; `qc_confidence` is pandas float64, modelled as a rational
since the app only compares and reorders these scores. -/
structure Row where
  path : String
  text : String
  qc_confidence : ℚ

/-- Embeds `sort_values("qc_confidence", ascending=True)` ordering. -/
def rowLe (a b : Row) : Prop := a.qc_confidence ≤ b.qc_confidence

instance : DecidableRel rowLe := fun a b =>
  inferInstanceAs (Decidable (a.qc_confidence ≤ b.qc_confidence))

instance : IsTotal Row rowLe := ⟨fun a b => le_total a.qc_confidence b.qc_confidence⟩

instance : IsTrans Row rowLe := ⟨fun _ _ _ h h2 => le_trans h h2⟩

/-- Embeds lines 163-170: `batch_df = df[df["path"].str.contains(batch)]`
(substring containment — the derived batch keys hold no regex metacharacters)
followed, when the `qc_confidence` column exists (`hasQc`), by
`sort_values("qc_confidence", ascending=True)`. -/
def batch_df (hasQc : Bool) (batch : String) (df : List Row) : List Row :=
  if hasQc then
    (df.filter (fun r => strContainsSubstr r.path batch)).insertionSort rowLe
  else df.filter (fun r => strContainsSubstr r.path batch)

/-- C8: the batch view holds exactly the rows whose `path` contains the batch
key as a substring (so `batch_1` also captures `batch_10` rows), and with a
`qc_confidence` column it is sorted ascending by that score; on the spec's
example scores `0.9, 0.1, 0.5` the view comes out `0.1, 0.5, 0.9`. -/
theorem batch_df_members_sorted (hasQc : Bool) (batch : String) (df : List Row) :
    (batch_df hasQc batch df).Perm
      (df.filter (fun r => strContainsSubstr r.path batch)) ∧
    (∀ r : Row, r ∈ batch_df hasQc batch df ↔
      r ∈ df ∧ strContainsSubstr r.path batch = true) ∧
    (hasQc = true → (batch_df hasQc batch df).Pairwise rowLe) ∧
    strContainsSubstr "batch_10/img_01.jpg" "batch_1" = true ∧
    batch_df true "batch_1"
        [⟨"batch_1/a.jpg", "x", 0.9⟩, ⟨"batch_1/b.jpg", "y", 0.1⟩,
         ⟨"batch_1/c.jpg", "z", 0.5⟩] =
      [⟨"batch_1/b.jpg", "y", 0.1⟩, ⟨"batch_1/c.jpg", "z", 0.5⟩,
       ⟨"batch_1/a.jpg", "x", 0.9⟩] := by
  have hperm : (batch_df hasQc batch df).Perm
      (df.filter (fun r => strContainsSubstr r.path batch)) := by
    rw [batch_df]
    cases hasQc
    · simp
    · simpa using List.perm_insertionSort rowLe
        (df.filter (fun r => strContainsSubstr r.path batch))
  refine ⟨hperm, ?_, ?_, by decide, ?_⟩
  · intro r
    rw [hperm.mem_iff, List.mem_filter]
  · intro hq
    rw [batch_df, hq, if_pos rfl]
    exact List.sorted_insertionSort rowLe _
  · norm_num [batch_df, List.insertionSort, List.orderedInsert, rowLe,
      strContainsSubstr]

/-- Witness for `batch_df_members_sorted`: the sortedness consequence at a
concrete one-row table. -/
theorem batch_df_members_sorted_witness :
    (batch_df true "batch_1" [⟨"batch_1/a.jpg", "x", 1⟩]).Pairwise rowLe :=
  (batch_df_members_sorted true "batch_1" [⟨"batch_1/a.jpg", "x", 1⟩]).2.2.1 rfl

/-- Order on index-carrying rows: `sort_values` compares the column value and
carries each row's index label along. -/
def rowIdxLe (a b : Nat × Row) : Prop := rowLe a.2 b.2

instance : DecidableRel rowIdxLe := fun a b =>
  inferInstanceAs (Decidable (rowLe a.2 b.2))

instance : IsTotal (Nat × Row) rowIdxLe :=
  ⟨fun a b => le_total a.2.qc_confidence b.2.qc_confidence⟩

instance : IsTrans (Nat × Row) rowIdxLe := ⟨fun _ _ _ h h2 => le_trans h h2⟩

/-- The batch view of lines 163-170 with the pandas index made explicit: the
loaded table carries the default RangeIndex `0..n-1` (`enum`), and both the
filter and `sort_values` keep each row's index label. -/
def batchDfIdx (hasQc : Bool) (batch : String) (df : List Row) :
    List (Nat × Row) :=
  if hasQc then
    (df.enum.filter
      (fun ir => strContainsSubstr ir.2.path batch)).insertionSort rowIdxLe
  else df.enum.filter (fun ir => strContainsSubstr ir.2.path batch)

/-- Embeds lines 213-227 for the unedited view, column shape only: after
dropping `image`, when `qc_confidence` exists (`hasQc`) the code runs
`reset_index()`, which materializes the old index as a leading `index` column;
`to_csv(index=False)` then writes exactly these columns. -/
def exportHeader (hasQc : Bool) : List String :=
  if hasQc then ["index", "path", "text", "qc_confidence"]
  else ["path", "text"]

/-- The serialized cells of one exported row, matching `exportHeader`. -/
def exportRowCells (hasQc : Bool) (ir : Nat × Row) : List String :=
  if hasQc then [toString ir.1, ir.2.path, ir.2.text, toString ir.2.qc_confidence]
  else [ir.2.path, ir.2.text]

/-- C10: when `qc_confidence` exists the export gains a leading `index` column
whose cell for each row is the row's index label, which is the row's position
in the loaded table — its pre-sort position; without `qc_confidence` no
`index` column is added. -/
theorem export_index_column (batch : String) (df : List Row) (i : Nat) (r : Row) :
    ((i, r) ∈ batchDfIdx true batch df →
      df[i]? = some r ∧
      (exportRowCells true (i, r)).head? = some (toString i) ∧
      exportHeader true = "index" :: ["path", "text", "qc_confidence"]) ∧
    ("index" ∉ exportHeader false ∧
      exportRowCells false (i, r) = [r.path, r.text]) := by
  constructor
  · intro hmem
    have h1 : (i, r) ∈ df.enum := by
      rw [batchDfIdx, if_pos rfl] at hmem
      have h2 := (List.perm_insertionSort rowIdxLe _).subset hmem
      exact (List.mem_filter.mp h2).1
    exact ⟨List.mk_mem_enum_iff_getElem?.mp h1, rfl, rfl⟩
  · exact ⟨by decide, rfl⟩

/-- Witness for `export_index_column` at a one-row table. -/
theorem export_index_column_witness :
    (⟨"batch_1/a.jpg", "x", (1 : ℚ)⟩ : Row) ∈ [(⟨"batch_1/a.jpg", "x", (1 : ℚ)⟩ : Row)] ∧
    ([(⟨"batch_1/a.jpg", "x", (1 : ℚ)⟩ : Row)][0]? = some ⟨"batch_1/a.jpg", "x", 1⟩ ∧
      (exportRowCells true (0, ⟨"batch_1/a.jpg", "x", 1⟩)).head? = some (toString 0) ∧
      exportHeader true = "index" :: ["path", "text", "qc_confidence"]) :=
  ⟨List.mem_cons_self _ _,
    (export_index_column "batch_1" [⟨"batch_1/a.jpg", "x", 1⟩] 0
        ⟨"batch_1/a.jpg", "x", 1⟩).1
      (by simp [batchDfIdx, strContainsSubstr, List.insertionSort,
        List.orderedInsert])⟩

/-- A `path`/`text` pair: the label content the round-trip property ranges
over. -/
structure LabelPair where
  path : String
  text : String
deriving DecidableEq

/-- A field `csv.writer` cannot write under `quoting=QUOTE_NONE`: it holds the
tab delimiter, the quote character, or a line-terminator character, and no
escapechar is configured, so writing raises `csv.Error` ("need to escape, but
no escapechar set"). -/
def needsEscapeTab (f : String) : Bool :=
  f.data.any (fun c => c = '\t' || c = '"' || c = '\n' || c = '\r')

/-- The data lines of `to_csv`: one line per row, fields joined by the tab
delimiter, each line closed by a newline. -/
def csvBody : List LabelPair → String
  | [] => ""
  | r :: rs => r.path ++ "\t" ++ r.text ++ "\n" ++ csvBody rs

/-- Embeds the download payload of lines 222-227,
`edited_df.to_csv(sep="\t", index=False, quoting=3)`, restricted to the
`path`/`text` columns: header line, then `csvBody`; `quoting=3` is
`QUOTE_NONE`, so any field containing a character that would need escaping
raises instead of being written. -/
def to_csvLabels (rows : List LabelPair) : Except String String :=
  if rows.any (fun r => needsEscapeTab r.path || needsEscapeTab r.text) then
    .error "need to escape, but no escapechar set"
  else .ok ("path\ttext" ++ "\n" ++ csvBody rows)

/-- Embeds `pd.read_csv(..., sep="\t", quoting=3)` (lines 109-115) plus the
`text` fillna of line 143, for a two-column `path`/`text` file: split into
lines (blank lines are skipped as `read_csv` does), check the header, split
each data line on the tab delimiter with quote characters read verbatim
(`QUOTE_NONE`), and take the two cells (an absent cell reads as NaN, which the
fillna turns into `""`). -/
def read_csvLabels (content : String) : Except String (List LabelPair) :=
  match (pySplit '\n' content.data).filter (fun l => !l.isEmpty) with
  | [] => .error "EmptyDataError"
  | header :: body =>
    if header = "path\ttext".data then
      .ok (body.map (fun line =>
        { path := String.mk ((pySplit '\t' line).getD 0 [])
          text := String.mk ((pySplit '\t' line).getD 1 []) }))
    else .error "SchemaError"

theorem needsEscapeTab_not_mem {f : String} (hf : needsEscapeTab f = false) :
    '\t' ∉ f.data ∧ '\n' ∉ f.data := by
  rw [needsEscapeTab, List.any_eq_false] at hf
  constructor <;> intro hm
  · have h2 := hf _ hm
    simp at h2
  · have h2 := hf _ hm
    simp at h2

theorem pySplit_csvBody (rows : List LabelPair)
    (h : ∀ r ∈ rows, needsEscapeTab r.path = false ∧ needsEscapeTab r.text = false) :
    pySplit '\n' (csvBody rows).data =
      rows.map (fun r => r.path.data ++ '\t' :: r.text.data) ++ [[]] := by
  induction rows with
  | nil => rfl
  | cons r rs ih =>
    have hr := h r (List.mem_cons_self r rs)
    have hline : '\n' ∉ (r.path.data ++ '\t' :: r.text.data) := by
      intro hm
      rcases List.mem_append.mp hm with hm1 | hm2
      · exact (needsEscapeTab_not_mem hr.1).2 hm1
      · rcases List.mem_cons.mp hm2 with he | hm3
        · exact absurd he (by decide)
        · exact (needsEscapeTab_not_mem hr.2).2 hm3
    have hdata : (csvBody (r :: rs)).data =
        (r.path.data ++ '\t' :: r.text.data) ++ '\n' :: (csvBody rs).data := by
      show (r.path ++ "\t" ++ r.text ++ "\n" ++ csvBody rs).data = _
      rw [String.data_append, String.data_append, String.data_append,
        String.data_append]
      simp [List.append_assoc]
    rw [hdata, pySplit_append, pySplit_of_not_mem hline,
      ih (fun x hx => h x (List.mem_cons_of_mem _ hx))]
    simp

/-- C1 (amended): for every table whose `path`/`text` fields contain no tab,
quote, CR or LF character, exporting and re-parsing the exported tab-separated
file yields exactly the same `path`/`text` pairs; with `quoting=QUOTE_NONE` on
the read side any quote character already inside a field is loaded verbatim,
but on the write side a field containing a quote (or delimiter/newline) makes
`to_csv` raise a csv escape error instead of being written. -/
theorem export_import_roundtrip (rows : List LabelPair)
    (h : ∀ r ∈ rows, needsEscapeTab r.path = false ∧ needsEscapeTab r.text = false) :
    ∃ out, to_csvLabels rows = .ok out ∧ read_csvLabels out = .ok rows := by
  have hguard : rows.any
      (fun r => needsEscapeTab r.path || needsEscapeTab r.text) = false := by
    rw [List.any_eq_false]
    intro r hr
    simp [(h r hr).1, (h r hr).2]
  refine ⟨"path\ttext" ++ "\n" ++ csvBody rows, by simp [to_csvLabels, hguard], ?_⟩
  have hcontent : ("path\ttext" ++ "\n" ++ csvBody rows).data =
      "path\ttext".data ++ '\n' :: (csvBody rows).data := by
    rw [String.data_append, String.data_append, List.append_assoc]
    rfl
  have hlines : (pySplit '\n'
        (("path\ttext" ++ "\n" ++ csvBody rows)).data).filter (fun l => !l.isEmpty) =
      "path\ttext".data :: rows.map (fun r => r.path.data ++ '\t' :: r.text.data) := by
    rw [hcontent, pySplit_append, pySplit_of_not_mem
      (by decide : '\n' ∉ "path\ttext".data), pySplit_csvBody rows h,
      List.filter_append, List.filter_append]
    have h1 : List.filter (fun l => !l.isEmpty) ["path\ttext".data] =
        ["path\ttext".data] := by decide
    have h2 : List.filter (fun l => !l.isEmpty) [([] : List Char)] = [] := rfl
    have h3 : (rows.map (fun r => r.path.data ++ '\t' :: r.text.data)).filter
        (fun l => !l.isEmpty) = rows.map (fun r => r.path.data ++ '\t' :: r.text.data) := by
      rw [List.filter_eq_self]
      intro x hx
      obtain ⟨r, _, rfl⟩ := List.mem_map.mp hx
      simp
    rw [h1, h2, h3, List.append_nil]
    rfl
  rw [read_csvLabels, hlines]
  simp only [eq_self_iff_true, if_true]
  congr 1
  rw [List.map_map]
  have hparse : ∀ r ∈ rows,
      ((fun line => LabelPair.mk (String.mk ((pySplit '\t' line).getD 0 []))
          (String.mk ((pySplit '\t' line).getD 1 []))) ∘
        (fun r : LabelPair => r.path.data ++ '\t' :: r.text.data)) r = r := by
    intro r hr
    have hp := (needsEscapeTab_not_mem (h r hr).1).1
    have ht := (needsEscapeTab_not_mem (h r hr).2).1
    show LabelPair.mk
        (String.mk ((pySplit '\t' (r.path.data ++ '\t' :: r.text.data)).getD 0 []))
        (String.mk ((pySplit '\t' (r.path.data ++ '\t' :: r.text.data)).getD 1 [])) = r
    rw [pySplit_append, pySplit_of_not_mem hp, pySplit_of_not_mem ht]
    rfl
  calc rows.map _ = rows.map id := List.map_congr_left hparse
    _ = rows := List.map_id rows

/-- Witness for `export_import_roundtrip` at the spec's end-to-end example
table. -/
theorem export_import_roundtrip_witness :
    ∃ out, to_csvLabels [⟨"imgs/1.jpg", "cat"⟩, ⟨"imgs/2.jpg", "doggo"⟩] = .ok out ∧
      read_csvLabels out = .ok [⟨"imgs/1.jpg", "cat"⟩, ⟨"imgs/2.jpg", "doggo"⟩] :=
  export_import_roundtrip [⟨"imgs/1.jpg", "cat"⟩, ⟨"imgs/2.jpg", "doggo"⟩]
    (by decide)

/-- C1 (counterexample): a label text holding a quote character cannot be
exported at all — `to_csv` with `quoting=QUOTE_NONE` and no escapechar raises —
while the same reader loads quote characters verbatim, so export-then-import
is not the identity on every loaded table. -/
theorem to_csv_quote_error :
    to_csvLabels [⟨"imgs/1.jpg", "say \"hi\""⟩] =
      .error "need to escape, but no escapechar set" ∧
    read_csvLabels ("path\ttext" ++ "\n" ++ "a\"b\tc" ++ "\n") =
      .ok [⟨"a\"b", "c"⟩] := by
  exact ⟨rfl, rfl⟩
